import Mathlib

set_option maxRecDepth 250000
set_option maxHeartbeats 4000000

/-!
Verification of the receipt extraction-and-reconciliation engine
(`src/services/parser.service.ts`, class `ReceiptParser`).

The engine is a pure function from raw OCR text to a `ReceiptData` record.
We give a shallow embedding:

* JavaScript numbers are modelled by `JSNum`: an exact rational or the
  not-a-number sentinel `nan`.  (`toFixed(2)` followed by `parseFloat` is
  modelled as exact decimal rounding to 2 places; JavaScript computes it on
  binary doubles, which agrees on all values arising in the claims.
  Division by zero is modelled as `nan`; in the source every division is
  guarded by a positivity check on the divisor, so the branch is unreachable.)
* `undefined` record fields are `Option.none`.  JavaScript truthiness of a
  numeric field (`!data.x`) is `truthy`: false for `undefined`, `NaN` and `0`.
* The JavaScript regular expressions of the extractor ladders are embedded
  as abstract syntax trees (`Reg`) run by a fuelled backtracking matcher with
  JavaScript semantics: leftmost match, ordered alternation, greedy and lazy
  quantifiers, capture groups, lookahead.  Each `Reg` value below transcribes
  one regex literal of the source, noted in a comment.
* `parse` composes the phases exactly as the source does: normalisation,
  money-candidate scan, section segmentation, the four numeric field ladders,
  vendor extraction, then the 8-step reconciliation (`Paso 1` .. `Paso 8`).
  The date and invoice-number extractors (sections 5 and 7 of the source)
  only write the fields `date` and `invoiceNumber`, which no other part of
  the function reads; they are omitted from the record, and the claims do
  not mention them.
-/

/-- A JavaScript number: an exact rational, or the not-a-number sentinel.
This idealizes IEEE-754 doubles: every finite value that actually flows
through the program on realistic receipts (decimals of a few digits) is
represented exactly, but the model has no `Infinity` and no rounding, so it
is faithful only while every value stays far below the double overflow
threshold of about `1.8e308`.  Theorems over all inputs therefore quantify
over the model's exact-rational arithmetic; where that idealization itself
hides a behaviour of the program (a capture long enough that the real
`parseFloat` saturates to `Infinity`), the verdict on the affected claim is
drawn from the source, not from this model. -/
inductive JSNum where
  | num (q : ℚ)
  | nan
deriving DecidableEq, Repr

namespace JSNum

/-- Addition; `NaN` is absorbing, as in JavaScript. -/
def add : JSNum → JSNum → JSNum
  | num a, num b => num (a + b)
  | _, _ => nan

/-- Subtraction; `NaN` is absorbing. -/
def sub : JSNum → JSNum → JSNum
  | num a, num b => num (a - b)
  | _, _ => nan

/-- Multiplication; `NaN` is absorbing. -/
def mul : JSNum → JSNum → JSNum
  | num a, num b => num (a * b)
  | _, _ => nan

/-- Division; `NaN` absorbing.  A zero divisor is modelled as `nan` (in the
source every division is guarded by a strict-positivity test on the divisor,
so this branch is never reached on any execution we reason about). -/
def div : JSNum → JSNum → JSNum
  | num a, num b => if b = 0 then nan else num (a / b)
  | _, _ => nan

/-- `a < b` as JavaScript evaluates it: false whenever an operand is `NaN`. -/
def ltB : JSNum → JSNum → Bool
  | num a, num b => decide (a < b)
  | _, _ => false

/-- `a > b`, false on `NaN`. -/
def gtB : JSNum → JSNum → Bool
  | num a, num b => decide (b < a)
  | _, _ => false

/-- `a >= b`, false on `NaN`. -/
def geB : JSNum → JSNum → Bool
  | num a, num b => decide (b ≤ a)
  | _, _ => false

/-- `a <= b`, false on `NaN`. -/
def leB : JSNum → JSNum → Bool
  | num a, num b => decide (a ≤ b)
  | _, _ => false

/-- `Math.abs`. -/
def abs : JSNum → JSNum
  | num a => num |a|
  | nan => nan

/-- `isNaN`. -/
def isNaNB : JSNum → Bool
  | num _ => false
  | nan => true

/-- `parseFloat(x.toFixed(2))`: rounding to two decimal places.  The source
always re-parses the `toFixed` string, so the result is again a number. -/
def toFixed2 : JSNum → JSNum
  | num q => num ((round (q * 100) : ℤ) / 100)
  | nan => nan

end JSNum

/-- JavaScript truthiness of a possibly-undefined number (`data.x` used as a
condition): `undefined`, `NaN` and `0` are falsy. -/
def truthy : Option JSNum → Bool
  | some (JSNum.num q) => decide (q ≠ 0)
  | _ => false

/-- `data.x !== undefined`. -/
def isDef (x : Option JSNum) : Bool := x.isSome

/-- Relational `<` on possibly-undefined operands: JavaScript coerces
`undefined` to `NaN`, so the comparison is false. -/
def oLt : Option JSNum → Option JSNum → Bool
  | some a, some b => a.ltB b
  | _, _ => false

/-- Relational `>` with `undefined` coerced to `NaN`. -/
def oGt : Option JSNum → Option JSNum → Bool
  | some a, some b => a.gtB b
  | _, _ => false

/-- Arithmetic `a - b` with `undefined` coerced to `NaN`. -/
def oSub : Option JSNum → Option JSNum → JSNum
  | some a, some b => a.sub b
  | _, _ => JSNum.nan

/-- Arithmetic `a + b` with `undefined` coerced to `NaN`. -/
def oAdd : Option JSNum → Option JSNum → JSNum
  | some a, some b => a.add b
  | _, _ => JSNum.nan

/-- Arithmetic `a * b` with `undefined` coerced to `NaN`. -/
def oMul : Option JSNum → Option JSNum → JSNum
  | some a, some b => a.mul b
  | _, _ => JSNum.nan

/-- Arithmetic `a / b` with `undefined` coerced to `NaN`. -/
def oDiv : Option JSNum → Option JSNum → JSNum
  | some a, some b => a.div b
  | _, _ => JSNum.nan

/-- The whitespace class of JavaScript regular expressions and of
`String.prototype.trim`, restricted to the characters that can occur here. -/
def jsSpace (c : Char) : Bool :=
  c = ' ' || c = '\t' || c = '\n' || c = '\x0d' || c = '\x0b' || c = '\x0c' ||
  c = '\u00A0'

/-- JavaScript `\d`. -/
def jsDigit (c : Char) : Bool := c.isDigit

/-- Numeric value of a digit list read in base 10. -/
def digitsVal (cs : List Char) : ℕ :=
  cs.foldl (fun acc c => acc * 10 + (c.toNat - 48)) 0

/-- The fractional digits following a leading dot, for `parseFloat`. -/
def fracPart : List Char → List Char
  | c :: r => if c = '.' then r.takeWhile jsDigit else []
  | [] => []

/-- The decimal literal at the head of `cs`: an optional integer part, an
optional dot and fractional part; at least one digit overall, trailing junk
ignored. -/
def parseDec (cs : List Char) : Option ℚ :=
  if (cs.takeWhile jsDigit).isEmpty ∧
      (fracPart (cs.drop (cs.takeWhile jsDigit).length)).isEmpty then none
  else some (((digitsVal (cs.takeWhile jsDigit) : ℤ) : ℚ) +
    ((digitsVal (fracPart (cs.drop (cs.takeWhile jsDigit).length)) : ℤ) : ℚ) /
      (10 : ℚ) ^ (fracPart (cs.drop (cs.takeWhile jsDigit).length)).length)

/-- JavaScript `parseFloat` on the decimal strings this program produces
(the inputs are built from digits, `.`, `,` and `-`, so no exponent form or
`Infinity` literal can occur): skip leading whitespace, optional sign, then
the longest decimal prefix; no digits at all gives `NaN`.  Like `JSNum`
itself this is exact: the real `parseFloat` returns the nearest double and
saturates to `Infinity` once the integer part exceeds about 308 digits,
while this model returns the exact rational for arbitrarily long digit
strings.  The regex captures fed to it are unbounded (`([\d,\.]+)`), so the
saturating case is reachable in the program even though it is outside this
model. -/
def parseFloat (s : String) : JSNum :=
  match s.data.dropWhile (fun c => jsSpace c) with
  | c :: rest =>
      if c = '-' then
        match parseDec rest with
        | some q => JSNum.num (-q)
        | none => JSNum.nan
      else if c = '+' then
        match parseDec rest with
        | some q => JSNum.num q
        | none => JSNum.nan
      else
        match parseDec (c :: rest) with
        | some q => JSNum.num q
        | none => JSNum.nan
  | [] => JSNum.nan

/-- `str.replace(/,/g, '')`. -/
def stripCommas (s : String) : String := ⟨s.data.filter (· ≠ ',')⟩

/-- `parseFloat(str.replace(/,/g, ''))`, the idiom used by the extractor
ladders and the money scanner. -/
def parseFloatNC (s : String) : JSNum := parseFloat (stripCommas s)

/-- `/\d+\.\d{3},\d{2}$/.test(s)`.  The regex is unanchored on the left and
anchored at the end, so the test holds exactly when the string ends with a
digit, a dot, three digits, a comma and two digits; we read the reversed
character list. -/
def euroTestA (s : String) : Bool :=
  match s.data.reverse with
  | a :: b :: ',' :: c :: d :: e :: '.' :: f :: _ =>
      jsDigit a && jsDigit b && jsDigit c && jsDigit d && jsDigit e && jsDigit f
  | _ => false

/-- One or more groups of three digits each followed by a dot, then at least
one more digit, read over a reversed character list: the reversal of
`\d{1,3}(?:\.\d{3})+` with the 1-3 leading digits weakened to at least one,
which is equivalent under the left-unanchored `test` semantics. -/
def revGroups : List Char → Bool
  | c :: d :: e :: f :: rest =>
      f = '.' && (jsDigit c && jsDigit d && jsDigit e &&
        (jsDigit (rest.headD ' ') || revGroups rest))
  | _ => false

/-- `/\d{1,3}(?:\.\d{3})+,\d{2}$/.test(s)`, again read from the end of the
string: two digits, a comma, then dot-separated three-digit groups preceded
by at least one digit. -/
def euroTestB (s : String) : Bool :=
  match s.data.reverse with
  | a :: b :: c :: rest => c = ',' && (jsDigit a && jsDigit b && revGroups rest)
  | _ => false

/-- `/\d+,\d{1,2}$/.test(s)`: the string ends with a digit, a comma and one
or two digits. -/
def commaDecTest (s : String) : Bool :=
  match s.data.reverse with
  | a :: ',' :: c :: _ => jsDigit a && jsDigit c
  | a :: b :: ',' :: c :: _ => jsDigit a && jsDigit b && jsDigit c
  | _ => false

/-- `str.replace(/\./g, '')`. -/
def stripDots (s : String) : String := ⟨s.data.filter (· ≠ '.')⟩

/-- `str.replace(/,/g, '.')`. -/
def commasToDots (s : String) : String :=
  ⟨s.data.map (fun c => if c = ',' then '.' else c)⟩

/-- `String.prototype.trim` on the character list. -/
def jsTrim (cs : List Char) : List Char :=
  ((cs.dropWhile fun c => jsSpace c).reverse.dropWhile fun c => jsSpace c).reverse

/-- Lines 37-40 of `parseCurrency`: trim, then strip every character that is
not a digit, comma, dot or minus. -/
def pcStrip (str : String) : String :=
  ⟨(jsTrim str.data).filter fun c => jsDigit c || c = ',' || c = '.' || c = '-'⟩

/-- Lines 42-63 of `parseCurrency`: decide which separator is the decimal
one and repair the string accordingly. -/
def pcRepair (s : String) : String :=
  if s.data.contains '.' && s.data.contains ',' then
    if euroTestA s || euroTestB s then commasToDots (stripDots s)
    else stripCommas s
  else if s.data.contains ',' && !s.data.contains '.' then
    if commaDecTest s then commasToDots s else stripCommas s
  else stripCommas s

/-- The helper `parseCurrency` of `ReceiptParser.parse` (lines 34-67 of the
source): strip everything but digits, comma, dot and minus; decide which
separator is the decimal one; parse the repaired string as a float. -/
def parseCurrency (str : String) : JSNum :=
  if str = "" then JSNum.nan else parseFloat (pcRepair (pcStrip str))

/-! ## A small JavaScript-regular-expression engine

The extractor ladders of the source are JavaScript regex literals.  We embed
each literal as a `Reg` syntax tree and run it with a fuelled backtracking
matcher implementing JavaScript match semantics: leftmost match wins, an
alternation prefers its left branch, quantifiers are greedy unless written
lazy, a capture group records the last text its body consumed, a lookahead
consumes nothing, and `^`/`$` anchor to the ends of the whole string (none
of the embedded literals uses the `m` flag). -/

/-- Capture environment: group index paired with the captured characters;
a later entry for the same group shadows an earlier one. -/
def Caps := List (Nat × List Char)

/-- The last recorded capture of group `i`, `none` when the group never
participated in the match (JavaScript `undefined`). -/
def capGet (caps : Caps) (i : Nat) : Option (List Char) :=
  (List.find? (fun p => p.1 == i) caps).map (fun p => p.2)

/-- Regex syntax: character class, concatenation, ordered alternation,
star (greedy or lazy), capture group, lookahead (positive or negative),
begin and end anchors. -/
inductive Reg where
  | eps
  | cls (p : Char → Bool)
  | cat (r1 r2 : Reg)
  | alt (r1 r2 : Reg)
  | star (lazyQ : Bool) (r : Reg)
  | grp (i : Nat) (r : Reg)
  | look (neg : Bool) (r : Reg)
  | bos
  | eos

/-- Number of constructors, used to compute an adequate fuel bound. -/
def Reg.size : Reg → Nat
  | .eps | .bos | .eos | .cls _ => 1
  | .cat a b | .alt a b => a.size + b.size + 1
  | .star _ r | .grp _ r | .look _ r => r.size + 1

/-- The backtracking matcher, in continuation-passing style.  `s` is the
rest of the input, `pos` the absolute position (for the anchors and for
capture extents), `k` the continuation run after `r` has matched a prefix.
A star iteration that consumes nothing is cut off, as in JavaScript.  The
fuel only forces termination; `fuelFor` below always suffices because every
star iteration consumes at least one character. -/
def mtch {α : Type} (fuel : Nat) (r : Reg) (s : List Char) (pos : Nat)
    (caps : Caps) (k : List Char → Nat → Caps → Option α) : Option α :=
  match fuel with
  | 0 => none
  | fuel + 1 =>
    match r with
    | .eps => k s pos caps
    | .cls p =>
      match s with
      | [] => none
      | c :: rest => if p c then k rest (pos + 1) caps else none
    | .cat r1 r2 =>
      mtch fuel r1 s pos caps (fun s1 p1 c1 => mtch fuel r2 s1 p1 c1 k)
    | .alt r1 r2 =>
      match mtch fuel r1 s pos caps k with
      | some res => some res
      | none => mtch fuel r2 s pos caps k
    | .star lz r1 =>
      if lz then
        match k s pos caps with
        | some res => some res
        | none =>
          mtch fuel r1 s pos caps (fun s1 p1 c1 =>
            if p1 = pos then none else mtch fuel (.star lz r1) s1 p1 c1 k)
      else
        match mtch fuel r1 s pos caps (fun s1 p1 c1 =>
            if p1 = pos then none else mtch fuel (.star lz r1) s1 p1 c1 k) with
        | some res => some res
        | none => k s pos caps
    | .grp i r1 =>
      mtch fuel r1 s pos caps (fun s1 p1 c1 =>
        k s1 p1 ((i, s.take (p1 - pos)) :: c1))
    | .look neg r1 =>
      match mtch fuel r1 s pos caps (fun _ _ c1 => some c1) with
      | some c1 => if neg then none else k s pos c1
      | none => if neg then k s pos caps else none
    | .bos => if pos = 0 then k s pos caps else none
    | .eos => if s.isEmpty then k s pos caps else none

/-- Fuel that lets `mtch` finish every search on an input of length `len`:
fuel is consumed along the constructor spine and once per star iteration,
both bounded by the pattern size and the input length. -/
def fuelFor (r : Reg) (len : Nat) : Nat := (len + 2) * (r.size + 2) + r.size + 2

/-- Leftmost match: try the pattern at each start position, left to right.
Returns (start, end, captures). -/
def findAux (fuel : Nat) (r : Reg) (s : List Char) (pos : Nat) :
    Option (Nat × Nat × Caps) :=
  match mtch fuel r s pos [] (fun _ p c => some (p, c)) with
  | some (e, c) => some (pos, e, c)
  | none =>
    match s with
    | [] => none
    | _ :: rest => findAux fuel r rest (pos + 1)

/-- A match result: start and end offsets and the captures. -/
structure MRes where
  mstart : Nat
  mstop : Nat
  caps : Caps

/-- `str.match(re)` for a regex without the `g` flag: the leftmost match. -/
def reFindS (r : Reg) (s : String) : Option MRes :=
  match findAux (fuelFor r s.data.length) r s.data 0 with
  | some (st, en, caps) => some ⟨st, en, caps⟩
  | none => none

/-- `re.test(str)`. -/
def reTestS (r : Reg) (s : String) : Bool := (reFindS r s).isSome

/-- Capture `i` of a match, as a string. -/
def MRes.capS (m : MRes) (i : Nat) : Option String :=
  (capGet m.caps i).map (fun cs => ⟨cs⟩)

/-- The `exec` loop over a `g`-flag regex: repeated leftmost search, each
next search starting at the previous match end (advancing one position on
an empty match, which cannot occur for the money pattern since its capture
needs at least one digit). -/
def execAux (r : Reg) (full : List Char) : Nat → Nat → List Caps
  | 0, _ => []
  | n + 1, pos =>
    match findAux (fuelFor r full.length) r (full.drop pos) pos with
    | some (st, en, caps) =>
        caps :: execAux r full n (if en = st then en + 1 else en)
    | none => []

/-- All matches of a global regex, in order. -/
def execAll (r : Reg) (full : List Char) : List Caps :=
  execAux r full (full.length + 1) 0

attribute [irreducible] mtch findAux execAux fuelFor

/-! Pattern-building helpers.  `rStr` is a case-insensitive literal (every
embedded regex carrying letters has the `i` flag; the one without, the
pipe-separated tax pattern, contains no letters). -/

/-- A single case-sensitive character. -/
def rLit (c : Char) : Reg := .cls (fun x => x = c)

/-- A single case-insensitive character. -/
def rCi (c : Char) : Reg := .cls (fun x => x.toLower = c.toLower)

/-- Case-insensitive string literal. -/
def rStr (s : String) : Reg := s.data.foldr (fun c acc => .cat (rCi c) acc) .eps

/-- Concatenation of a list of patterns. -/
def rCat (l : List Reg) : Reg := l.foldr .cat .eps

/-- Ordered alternation of a non-empty list of patterns. -/
def rAlts : List Reg → Reg
  | [] => .eps
  | [r] => r
  | r :: rs => .alt r (rAlts rs)

/-- Greedy `?`. -/
def rOpt (r : Reg) : Reg := .alt r .eps

/-- Greedy `*`. -/
def rStar (r : Reg) : Reg := .star false r

/-- Lazy `*?`. -/
def rStarL (r : Reg) : Reg := .star true r

/-- Greedy `+`. -/
def rPlus (r : Reg) : Reg := .cat r (rStar r)

/-- Exactly `n` copies. -/
def rRep : Nat → Reg → Reg
  | 0, _ => .eps
  | n + 1, r => .cat r (rRep n r)

/-- Up to `n` further copies, greedily. -/
def rOptChain : Nat → Reg → Reg
  | 0, _ => .eps
  | n + 1, r => rOpt (.cat r (rOptChain n r))

/-- Greedy `r{m,n}`. -/
def rRepRange (m n : Nat) (r : Reg) : Reg := .cat (rRep m r) (rOptChain (n - m) r)

/-- `\d`. -/
def rDigit : Reg := .cls jsDigit

/-- `\s`. -/
def rSpace : Reg := .cls jsSpace

/-- `[\s\S]`: any character at all. -/
def rAny : Reg := .cls (fun _ => true)

/-- `.` without the `s` flag: anything but a line terminator. -/
def rDot : Reg := .cls (fun c => !(c = '\n' || c = '\x0d'))

/-- `[^\d]` (also written `[^0-9]` in the source). -/
def rNotDigit : Reg := .cls (fun c => !jsDigit c)

/-- `[^\n]`. -/
def rNotNl : Reg := .cls (fun c => !(c = '\n'))

/-- `[:\s]`. -/
def rColonSp : Reg := .cls (fun c => c = ':' || jsSpace c)

/-- `[\d,\.]` (also written `[\d,.]`). -/
def rNumCD : Reg := .cls (fun c => jsDigit c || c = ',' || c = '.')

/-- `[\d,]`. -/
def rNumC : Reg := .cls (fun c => jsDigit c || c = ',')

/-- `[.,]`. -/
def rDotComma : Reg := .cls (fun c => c = '.' || c = ',')

/-- `[.,\s]`. -/
def rDotCommaSp : Reg := .cls (fun c => c = '.' || c = ',' || jsSpace c)

/-! ## The regex literals of `ReceiptParser.parse`, transcribed -/

/-- Line 70: the money-candidate scanner pattern
`/(?:\$|USD|EUR|€|GBP|£)?\s*([0-9]{1,3}(?:[.,\s][0-9]{3})*(?:[.,][0-9]{1,2})?)/gi`. -/
def moneyRe : Reg :=
  rCat [rOpt (rAlts [rLit '$', rStr "USD", rStr "EUR", rLit '€',
                     rStr "GBP", rLit '£']),
        rStar rSpace,
        .grp 1 (rCat [rRepRange 1 3 rDigit,
                      rStar (rCat [rDotCommaSp, rRep 3 rDigit]),
                      rOpt (rCat [rDotComma, rRepRange 1 2 rDigit])])]

/-- Line 87: `/(desglose\s+itbms|valor\s+total|totals?|amounts?\s+breakdown)([\s\S]*)/i`. -/
def desgloseRe : Reg :=
  rCat [.grp 1 (rAlts
          [rCat [rStr "desglose", rPlus rSpace, rStr "itbms"],
           rCat [rStr "valor", rPlus rSpace, rStr "total"],
           rCat [rStr "total", rOpt (rCi 's')],
           rCat [rStr "amount", rOpt (rCi 's'), rPlus rSpace, rStr "breakdown"]]),
        .grp 2 (rStar rAny)]

/-- Line 91:
`/(valor\s+total|total\s+pagado|desglose|totals?|amount\s+paid)([\s\S]*?)(?:forma\s+de\s+pago|payment\s+method|p[aá]gina|page|$)/i`. -/
def totalsSectionRe : Reg :=
  rCat [.grp 1 (rAlts
          [rCat [rStr "valor", rPlus rSpace, rStr "total"],
           rCat [rStr "total", rPlus rSpace, rStr "pagado"],
           rStr "desglose",
           rCat [rStr "total", rOpt (rCi 's')],
           rCat [rStr "amount", rPlus rSpace, rStr "paid"]]),
        .grp 2 (rStarL rAny),
        rAlts [rCat [rStr "forma", rPlus rSpace, rStr "de", rPlus rSpace,
                     rStr "pago"],
               rCat [rStr "payment", rPlus rSpace, rStr "method"],
               rCat [rCi 'p', .cls (fun c => c.toLower = 'a' || c = 'á' || c = 'Á'),
                     rStr "gina"],
               rStr "page",
               .eos]]

/-- Lines 95-104: the eight subtotal patterns, in ladder order. -/
def subtotalPatterns : List Reg :=
  [ -- /monto\s+gravado\s+(?:itbms|tbws)[^\d]*([\d,\.]+)?/i
    rCat [rStr "monto", rPlus rSpace, rStr "gravado", rPlus rSpace,
          rAlts [rStr "itbms", rStr "tbws"], rStar rNotDigit,
          rOpt (.grp 1 (rPlus rNumCD))],
    -- /monto\s*base[^\d]*([\d,\.]+)?/i
    rCat [rStr "monto", rStar rSpace, rStr "base", rStar rNotDigit,
          rOpt (.grp 1 (rPlus rNumCD))],
    -- /sub[\s-]?total[:\s]*\$?\s*([\d,\.]+)?/i
    rCat [rStr "sub", rOpt (.cls (fun c => jsSpace c || c = '-')), rStr "total",
          rStar rColonSp, rOpt (rLit '$'), rStar rSpace,
          rOpt (.grp 1 (rPlus rNumCD))],
    -- /subtotal[:\s]*\$?\s*([\d,\.]+)?/i
    rCat [rStr "subtotal", rStar rColonSp, rOpt (rLit '$'), rStar rSpace,
          rOpt (.grp 1 (rPlus rNumCD))],
    -- /importe\s*base[:\s]*\$?\s*([\d,\.]+)?/i
    rCat [rStr "importe", rStar rSpace, rStr "base", rStar rColonSp,
          rOpt (rLit '$'), rStar rSpace, rOpt (.grp 1 (rPlus rNumCD))],
    -- /base\s*imponible[:\s]*\$?\s*([\d,\.]+)?/i
    rCat [rStr "base", rStar rSpace, rStr "imponible", rStar rColonSp,
          rOpt (rLit '$'), rStar rSpace, rOpt (.grp 1 (rPlus rNumCD))],
    -- /amount\s*before\s*tax[:\s]*\$?\s*([\d,\.]+)?/i
    rCat [rStr "amount", rStar rSpace, rStr "before", rStar rSpace, rStr "tax",
          rStar rColonSp, rOpt (rLit '$'), rStar rSpace,
          rOpt (.grp 1 (rPlus rNumCD))],
    -- /amount\s*net[:\s]*\$?\s*([\d,\.]+)?/i
    rCat [rStr "amount", rStar rSpace, rStr "net", rStar rColonSp,
          rOpt (rLit '$'), rStar rSpace, rOpt (.grp 1 (rPlus rNumCD))] ]

/-- `\d{1,2}(?:\.\d+)?`, the percentage number shape. -/
def pctNum : Reg :=
  rCat [rRepRange 1 2 rDigit, rOpt (rCat [rLit '.', rPlus rDigit])]

/-- `(?:tax|impuesto|iva|itbms|vat|gst)`. -/
def taxWord : Reg :=
  rAlts [rStr "tax", rStr "impuesto", rStr "iva", rStr "itbms",
         rStr "vat", rStr "gst"]

/-- Lines 118-123: the four tax-percentage patterns, in ladder order. -/
def taxPercentPatterns : List Reg :=
  [ -- /(\d{1,2}(?:\.\d+)?)\s*%\s*(?:tax|impuesto|iva|itbms|vat|gst)?/i
    rCat [.grp 1 pctNum, rStar rSpace, rLit '%', rStar rSpace, rOpt taxWord],
    -- /(?:tax|impuesto|iva|itbms|vat|gst)[:\s]*(\d{1,2}(?:\.\d+)?)\s*%/i
    rCat [taxWord, rStar rColonSp, .grp 1 pctNum, rStar rSpace, rLit '%'],
    -- /rate[:\s]*(\d{1,2}(?:\.\d+)?)\s*%/i
    rCat [rStr "rate", rStar rColonSp, .grp 1 pctNum, rStar rSpace, rLit '%'],
    -- /(\d{1,2}(?:\.\d+)?)\s*%/i
    rCat [.grp 1 pctNum, rStar rSpace, rLit '%'] ]

/-- `[\d,]+\.?\d*`, the loose money shape of the tax-amount ladder. -/
def looseNum : Reg := rCat [rPlus rNumC, rOpt (rLit '.'), rStar rDigit]

/-- `[\\d,]` with the `i` flag: a backslash, the letter d or D, or a comma
(the first tax pattern is written with doubled backslashes inside a regex
literal, so `\\d` is an escaped backslash followed by a literal letter d). -/
def rBsD : Reg := .cls (fun c => c = '\\' || c.toLower = 'd' || c = ',')

/-- Lines 142-153: the seven tax-amount patterns, in ladder order.  The
first, `/([\\d,]+\\.\\d{2})\\s+total\\s+([\\d,]+\\.?\\d*)/i`, double-escapes
every backslash, so it matches literal backslash characters: `\\.` is a
backslash then any character, `\\d{2}` is a backslash then `dd`, `\\s+` is
a backslash then one or more letters s. -/
def taxAmountPatterns : List Reg :=
  [ -- /([\\d,]+\\.\\d{2})\\s+total\\s+([\\d,]+\\.?\\d*)/i
    rCat [.grp 1 (rCat [rPlus rBsD, rLit '\\', rDot, rLit '\\',
                        rRep 2 (rCi 'd')]),
          rLit '\\', rPlus (rCi 's'), rStr "total", rLit '\\', rPlus (rCi 's'),
          .grp 2 (rCat [rPlus rBsD, rLit '\\', rOpt rDot, rLit '\\',
                        rStar (rCi 'd')])],
    -- /([\d,]+\.?\d*)\s*\|\s*(\d+)\s*\|\s*([\d,]+\.?\d*)/
    rCat [.grp 1 looseNum, rStar rSpace, rLit '|', rStar rSpace,
          .grp 2 (rPlus rDigit), rStar rSpace, rLit '|', rStar rSpace,
          .grp 3 looseNum],
    -- /total\s+impuesto[^\d]*([\d,]+\.?\d*)/i
    rCat [rStr "total", rPlus rSpace, rStr "impuesto", rStar rNotDigit,
          .grp 1 looseNum],
    -- /toul\s+impusstel[^\d]*([\d,]+\.?\d*)/i
    rCat [rStr "toul", rPlus rSpace, rStr "impusstel", rStar rNotDigit,
          .grp 1 looseNum],
    -- /total\s+tax[^\d]*([\d,]+\.?\d*)/i
    rCat [rStr "total", rPlus rSpace, rStr "tax", rStar rNotDigit,
          .grp 1 looseNum],
    -- /(?:itbms|impuesto|iva|vat|sales\s+tax|gst)(?!.*unitario)[^\d]*(\d{1,3}(?:[.,]\d{3})*(?:[.,]\d{1,2})?)(?:\s|$)/i
    rCat [rAlts [rStr "itbms", rStr "impuesto", rStr "iva", rStr "vat",
                 rCat [rStr "sales", rPlus rSpace, rStr "tax"], rStr "gst"],
          .look true (rCat [rStar rDot, rStr "unitario"]),
          rStar rNotDigit,
          .grp 1 (rCat [rRepRange 1 3 rDigit,
                        rStar (rCat [rDotComma, rRep 3 rDigit]),
                        rOpt (rCat [rDotComma, rRepRange 1 2 rDigit])]),
          rAlts [rSpace, .eos]],
    -- /tax[:\s]*([\d,\.]+)\s*(?:amount)?/i
    rCat [rStr "tax", rStar rColonSp, .grp 1 (rPlus rNumCD), rStar rSpace,
          rOpt (rStr "amount")] ]

/-- `[:\s]*\$?\s*([\d,\.]+)`, the labelled-amount tail of the total ladder. -/
def labelTail : Reg :=
  rCat [rStar rColonSp, rOpt (rLit '$'), rStar rSpace, .grp 1 (rPlus rNumCD)]

/-- Lines 182-191: the eight total patterns, in ladder order. -/
def totalPatterns : List Reg :=
  [ -- /total\s+pagado[:\s]*\$?\s*([\d,\.]+)/i
    rCat [rStr "total", rPlus rSpace, rStr "pagado", labelTail],
    -- /valor\s+total[:\s]*\$?\s*([\d,\.]+)/i
    rCat [rStr "valor", rPlus rSpace, rStr "total", labelTail],
    -- /total(?:\s+a\s+pagar)?[:\s]*\$?\s*([\d,\.]+)/i
    rCat [rStr "total",
          rOpt (rCat [rPlus rSpace, rCi 'a', rPlus rSpace, rStr "pagar"]),
          labelTail],
    -- /total\s+general[:\s]*\$?\s*([\d,\.]+)/i
    rCat [rStr "total", rPlus rSpace, rStr "general", labelTail],
    -- /importe\s+total[:\s]*\$?\s*([\d,\.]+)/i
    rCat [rStr "importe", rPlus rSpace, rStr "total", labelTail],
    -- /gran\s+total[:\s]*\$?\s*([\d,\.]+)/i
    rCat [rStr "gran", rPlus rSpace, rStr "total", labelTail],
    -- /amount\s+paid[:\s]*\$?\s*([\d,\.]+)/i
    rCat [rStr "amount", rPlus rSpace, rStr "paid", labelTail],
    -- /total[:\s]*\$?\s*([\d,\.]+)/i
    rCat [rStr "total", labelTail] ]

/-- Line 304: `/(?:itbms|tax|impuesto)[^0-9]*0+\.0+/i`, the zero-tax probe. -/
def zeroTaxRe : Reg :=
  rCat [rAlts [rStr "itbms", rStr "tax", rStr "impuesto"],
        rStar rNotDigit, rPlus (rLit '0'), rLit '.', rPlus (rLit '0')]

/-- Lines 230-235: the four labelled vendor patterns, in ladder order. -/
def vendorPatterns : List Reg :=
  [ -- /(?:emisor|raz[oó]n\s+social|rnc|nit)[:\s]*([^\n]+)/i
    rCat [rAlts [rStr "emisor",
                 rCat [rStr "raz",
                       .cls (fun c => c.toLower = 'o' || c = 'ó' || c = 'Ó'),
                       rCi 'n', rPlus rSpace, rStr "social"],
                 rStr "rnc", rStr "nit"],
          rStar rColonSp, .grp 1 (rPlus rNotNl)],
    -- /(?:vendor|vendedor|supplier|supplier\s+name|nombre)[:\s]*([^\n]+)/i
    rCat [rAlts [rStr "vendor", rStr "vendedor", rStr "supplier",
                 rCat [rStr "supplier", rPlus rSpace, rStr "name"],
                 rStr "nombre"],
          rStar rColonSp, .grp 1 (rPlus rNotNl)],
    -- /(?:empresa|company|business)[:\s]*([^\n]+)/i
    rCat [rAlts [rStr "empresa", rStr "company", rStr "business"],
          rStar rColonSp, .grp 1 (rPlus rNotNl)],
    -- /(?:nombre\s+comercial|trade\s+name)[:\s]*([^\n]+)/i
    rCat [rAlts [rCat [rStr "nombre", rPlus rSpace, rStr "comercial"],
                 rCat [rStr "trade", rPlus rSpace, rStr "name"]],
          rStar rColonSp, .grp 1 (rPlus rNotNl)] ]

/-- Lines 248-252: the stoplist for the vendor first-line fallback. -/
def skipPatterns : List Reg :=
  [rStr "factura", rStr "invoice", rStr "receipt", rStr "comprobante",
   rStr "fecha", rStr "date", rStr "folio",
   rCat [rStr "pag", .cls (fun c => c.toLower = 'i' || c.toLower = 'a'),
         rStr "na"],
   rStr "http",
   rCat [.bos, rPlus rDigit, .eos],
   rCat [.bos, .cls (fun c => 'A' ≤ c && c ≤ 'Z'), .eos],
   rStr "ticket"]

/-- `/\d/`. -/
def hasDigitRe : Reg := rDigit

/-- `/[A-Za-z]/`. -/
def hasAlphaRe : Reg :=
  .cls (fun c => ('A' ≤ c && c ≤ 'Z') || ('a' ≤ c && c ≤ 'z'))

/-! ## The normalizer (lines 17-29) -/

/-- JavaScript `\w`. -/
def isWordChar (c : Char) : Bool := c.isAlphanum || c = '_'

/-- `.replace(/\r/g, '\n')`. -/
def crToNl (cs : List Char) : List Char :=
  cs.map (fun c => if c = '\x0d' then '\n' else c)

/-- One OCR-confusion pass, `.replace(/\bT(?=\d)/g, R)` for a letter `T` and
digit `R`: replace `target` by `repl` where the previous character of the
original string is not a word character (the `\b`) and the next one is a
digit (the lookahead).  `prevWord` tracks the previous original character. -/
def ocrFix (target repl : Char) : Bool → List Char → List Char
  | _, [] => []
  | prevWord, c :: rest =>
    (if c = target && !prevWord && jsDigit (rest.headD ' ') then repl else c)
      :: ocrFix target repl (isWordChar c) rest

/-- A non-breaking space or tab, the class of `/[ \t]+/g`. -/
def nbspTab (c : Char) : Bool := c = ' ' || c = '\t'

/-- `.replace(/[ \t]+/g, ' ')`: collapse each run to one space.
The boolean says whether we are inside a run already replaced. -/
def cnAux : Bool → List Char → List Char
  | _, [] => []
  | inRun, c :: rest =>
    if nbspTab c then
      if inRun then cnAux true rest else ' ' :: cnAux true rest
    else c :: cnAux false rest

/-- `.replace(/–|—/g, '-')`. -/
def dashFix (cs : List Char) : List Char :=
  cs.map (fun c => if c = '–' || c = '—' then '-' else c)

/-- `.replace(/\s+\n/g, '\n')`, processed over the reversed string: inside a
whitespace run, everything before the run's last newline is absorbed into
it.  The boolean says whether such a newline has just been emitted, so that
the remaining (earlier) whitespace of the run is dropped. -/
def wsAux : Bool → List Char → List Char
  | _, [] => []
  | absorb, c :: rest =>
    if jsSpace c then
      if absorb then wsAux true rest
      else if c = '\n' then '\n' :: wsAux true rest
      else c :: wsAux false rest
    else c :: wsAux false rest

/-- `.replace(/\s+\n/g, '\n')`. -/
def wsNlPass (cs : List Char) : List Char := (wsAux false cs.reverse).reverse

/-- `.replace(/\n{2,}/g, '\n')`: collapse newline runs to one newline. -/
def nlAux : Bool → List Char → List Char
  | _, [] => []
  | inRun, c :: rest =>
    if c = '\n' then
      if inRun then nlAux true rest else '\n' :: nlAux true rest
    else c :: nlAux false rest

/-- The `normalize` helper of `parse` (lines 17-29), applying the seven
replacements in source order and trimming. -/
def normalizeText (txt : String) : String :=
  ⟨jsTrim (nlAux false (wsNlPass (dashFix (cnAux false
      (ocrFix 'S' '5' false (ocrFix 'I' '1' false (ocrFix 'O' '0' false
        (crToNl txt.data))))))))⟩

/-! ## The money-candidate scanner (lines 69-83) -/

/-- The values pushed by the `moneyPattern.exec` loop: for every match with
a non-empty first capture, `parseFloat` of the capture with commas removed,
kept only when not `NaN`. -/
def moneyVals (raw : String) : List ℚ :=
  (execAll moneyRe raw.data).filterMap (fun caps =>
    match capGet caps 1 with
    | some c1 =>
        if c1.isEmpty then none
        else
          match parseFloatNC ⟨c1⟩ with
          | JSNum.num q => some q
          | JSNum.nan => none
    | none => none)

/-- Insert into a descending list. -/
def insDesc (x : ℚ) : List ℚ → List ℚ
  | [] => [x]
  | y :: ys => if y ≤ x then x :: y :: ys else y :: insDesc x ys

/-- `.sort((a, b) => b - a)`: descending order. -/
def sortDesc (l : List ℚ) : List ℚ := l.foldr insDesc []

/-! ## The field-extraction ladders -/

/-- JavaScript truthiness of a possibly-undefined string. -/
def truthyS : Option String → Bool
  | some s => s ≠ ""
  | none => false

/-- Lines 106-115: first subtotal pattern whose first capture parses to a
positive value (`if (value > 0)`); on failure the ladder continues. -/
def subtotalFromPats : List Reg → String → Option JSNum
  | [], _ => none
  | p :: ps, t =>
    match reFindS p t with
    | some m =>
        if truthyS (m.capS 1) then
          if (parseFloatNC ((m.capS 1).getD "")).gtB (JSNum.num 0) then
            some (parseFloatNC ((m.capS 1).getD ""))
          else subtotalFromPats ps t
        else subtotalFromPats ps t
    | none => subtotalFromPats ps t

/-- `taxMatch[2] || taxMatch[1]`. -/
def strOr (a b : Option String) : Option String :=
  match a with
  | some s => if s ≠ "" then some s else b
  | none => b

/-- Lines 125-139: first tax-percentage pattern whose captured value lies in
[0, 25]; out-of-range values let the ladder continue. -/
def taxPercentFromPats : List Reg → String → Option JSNum
  | [], _ => none
  | p :: ps, t =>
    match reFindS p t with
    | some m =>
        if truthyS (strOr (m.capS 2) (m.capS 1)) then
          if (parseFloat ((strOr (m.capS 2) (m.capS 1)).getD "")).geB
                (JSNum.num 0) &&
              (parseFloat ((strOr (m.capS 2) (m.capS 1)).getD "")).leB
                (JSNum.num 25) then
            some (parseFloat ((strOr (m.capS 2) (m.capS 1)).getD ""))
          else taxPercentFromPats ps t
        else taxPercentFromPats ps t
    | none => taxPercentFromPats ps t

/-- Lines 158-168: the candidate of one tax-amount pattern match.  A truthy
capture 3 wins outright; with truthy captures 1 and 2 the smaller value is
taken only when it is capture 1 (`val1 < val2 ? val1 : null`); otherwise a
truthy capture 1. -/
def taxCandidate (m : MRes) : Option JSNum :=
  if truthyS (m.capS 3) then
    some (parseFloatNC ((m.capS 3).getD ""))
  else if truthyS (m.capS 2) && truthyS (m.capS 1) then
    if (parseFloatNC ((m.capS 1).getD "")).ltB
        (parseFloatNC ((m.capS 2).getD "")) then
      some (parseFloatNC ((m.capS 1).getD ""))
    else none
  else if truthyS (m.capS 1) then
    some (parseFloatNC ((m.capS 1).getD ""))
  else none

/-- Lines 155-179: the tax-amount ladder.  `amt` and `sub` are the values of
`data.amount` and `data.subtotalAmount` when the ladder runs (the total is
extracted after the tax, so `parse` passes `none` for `amt`).  Capture 3
wins outright; with captures 1 and 2 the smaller is taken only when it is
capture 1; the candidate must be non-negative and below any truthy total
and subtotal. -/
def taxFromPats : List Reg → String → Option JSNum → Option JSNum →
    Option JSNum
  | [], _, _, _ => none
  | p :: ps, t, amt, sub =>
    match reFindS p t with
    | some m =>
        match taxCandidate m with
        | some tv =>
            if tv.geB (JSNum.num 0) then
              if !truthy amt || oLt (some tv) amt then
                if !truthy sub || oLt (some tv) sub then some tv
                else taxFromPats ps t amt sub
              else taxFromPats ps t amt sub
            else taxFromPats ps t amt sub
        | none => taxFromPats ps t amt sub
    | none => taxFromPats ps t amt sub

/-- Lines 204-207: `if (!data.amount && maxAmount) data.amount = maxAmount`,
the money-scanner fallback (`maxAmount` is falsy when absent or zero). -/
def amountFallback (amt0 : Option JSNum) (maxAmount : Option ℚ) :
    Option JSNum :=
  if !truthy amt0 &&
      (match maxAmount with | some v => decide (v ≠ 0) | none => false) then
    maxAmount.map JSNum.num
  else amt0

/-- Lines 209-212: `if (data.amount) data.amount =
parseFloat(data.amount.toFixed(2))`. -/
def amountRound (a : Option JSNum) : Option JSNum :=
  if truthy a then a.map JSNum.toFixed2 else a

/-- Lines 193-202: first total pattern whose capture `parseCurrency`-parses
to a non-`NaN` value. -/
def totalFromPats : List Reg → String → Option JSNum
  | [], _ => none
  | p :: ps, t =>
    match reFindS p t with
    | some m =>
        if truthyS (m.capS 1) then
          if (parseCurrency ((m.capS 1).getD "")).isNaNB then totalFromPats ps t
          else some (parseCurrency ((m.capS 1).getD ""))
        else totalFromPats ps t
    | none => totalFromPats ps t

/-- Lines 237-243: first labelled vendor pattern match, trimmed. -/
def vendorFromPats : List Reg → String → Option String
  | [], _ => none
  | p :: ps, t =>
    match reFindS p t with
    | some m =>
        if truthyS (m.capS 1) then some ⟨jsTrim ((m.capS 1).getD "").data⟩
        else vendorFromPats ps t
    | none => vendorFromPats ps t

/-- Lines 254-262: the vendor first-line fallback over the non-empty trimmed
lines of the normalized text. -/
def vendorFallback : List String → Option String
  | [] => none
  | line :: ls =>
    if line.length < 3 || skipPatterns.any (fun p => reTestS p line) then
      vendorFallback ls
    else if reTestS hasDigitRe line && reTestS hasAlphaRe line &&
        line.length < 6 then
      vendorFallback ls
    else some line

/-- `text.split('\n').map(l => l.trim()).filter(l => l.length > 0)`. -/
def splitLines (text : String) : List String :=
  ((text.split (fun c => c = '\n')).map
      (fun l => (⟨jsTrim l.data⟩ : String))).filter (fun l => l.length > 0)

/-! ## The output record and the two phases of `parse` -/

/-- The `ReceiptData` record as `parse` populates it.  The `date` and
`invoiceNumber` fields are omitted: their extractors write nothing else and
read nothing written by the rest of the function. -/
structure ReceiptData where
  rawText : String
  amount : Option JSNum := none
  subtotalAmount : Option JSNum := none
  taxAmount : Option JSNum := none
  taxPercentage : Option JSNum := none
  vendorName : Option String := none
deriving DecidableEq, Repr

/-- Lines 85-92: the text the subtotal, tax-percentage and tax-amount
ladders run on.  When the explicit totals-section regex (line 91) matches,
its second capture; otherwise the `desglose` section (line 87) when that
matches, and the whole normalized text when neither does. -/
def extractionTextOf (raw : String) : String :=
  match reFindS totalsSectionRe (normalizeText raw) with
  | some m => (m.capS 2).getD ""
  | none =>
    match reFindS desgloseRe (normalizeText raw) with
    | some m => (m.capS 2).getD ""
    | none => normalizeText raw

/-- Lines 229-263: the vendor name, from the labelled ladder over the raw
text, falling back to the first acceptable normalized line when the ladder
produced nothing truthy. -/
def vendorOf (raw : String) : Option String :=
  if truthyS (vendorFromPats vendorPatterns raw) then
    vendorFromPats vendorPatterns raw
  else
    match vendorFallback (splitLines (normalizeText raw)) with
    | some l => some l
    | none => vendorFromPats vendorPatterns raw

/-- The extraction phase of `parse` (lines 12-290, without the date and
invoice extractors): normalisation, sectioning, the four numeric ladders in
source order (the tax ladder sees the extracted subtotal but no total yet),
the money-scanner fallback for the total and its rounding, and the vendor
name. -/
def extractPhase (rawText : String) : ReceiptData :=
  { rawText := rawText,
    amount := amountRound (amountFallback
      (totalFromPats totalPatterns rawText)
      (sortDesc (moneyVals rawText)).head?),
    subtotalAmount := subtotalFromPats subtotalPatterns
      (extractionTextOf rawText),
    taxAmount := taxFromPats taxAmountPatterns (extractionTextOf rawText) none
      (subtotalFromPats subtotalPatterns (extractionTextOf rawText)),
    taxPercentage := taxPercentFromPats taxPercentPatterns
      (extractionTextOf rawText),
    vendorName := vendorOf rawText }

/-- Line 322: `data.amount / (1 + data.taxPercentage / 100)`, rounded as
stored on line 323. -/
def calcSubFromPct (d : ReceiptData) : JSNum :=
  (oDiv d.amount (some ((JSNum.num 1).add (oDiv d.taxPercentage
    (some (JSNum.num 100)))))).toFixed2

/-- Line 334: `data.subtotalAmount * (data.taxPercentage / 100)`, rounded. -/
def calcTaxFromPct (d : ReceiptData) : JSNum :=
  (oMul d.subtotalAmount (some (oDiv d.taxPercentage
    (some (JSNum.num 100))))).toFixed2

/-- Lines 356 and 375: `(tax / subtotal) * 100`, rounded. -/
def calcPct (tax sub : Option JSNum) : JSNum :=
  (oMul (some (oDiv tax sub)) (some (JSNum.num 100))).toFixed2

/-- Lines 350, 373, 392: `data.amount - data.subtotalAmount`, rounded. -/
def taxFromDiff (d : ReceiptData) : JSNum :=
  (oSub d.amount d.subtotalAmount).toFixed2

/-- Paso 1 (lines 302-311): zero-tax detection. -/
def step1 (d : ReceiptData) : ReceiptData :=
  if truthy d.amount && !truthy d.taxAmount && !truthy d.taxPercentage then
    if reTestS zeroTaxRe d.rawText then
      { d with taxAmount := some (JSNum.num 0),
               taxPercentage := some (JSNum.num 0),
               subtotalAmount := d.amount }
    else d
  else d

/-- Paso 2 (lines 313-317): subtotal from total minus tax. -/
def step2 (d : ReceiptData) : ReceiptData :=
  if !truthy d.subtotalAmount && isDef d.amount && isDef d.taxAmount then
    { d with subtotalAmount := some (oSub d.amount d.taxAmount).toFixed2 }
  else d

/-- Paso 2.5 (lines 319-330): subtotal from total and tax percentage; when
the tax amount is still undefined, also the tax from the difference with the
just-stored subtotal. -/
def step2x (d : ReceiptData) : ReceiptData :=
  if !truthy d.subtotalAmount && truthy d.amount && truthy d.taxPercentage then
    if d.taxAmount = none then
      { d with subtotalAmount := some (calcSubFromPct d),
               taxAmount :=
                 some (oSub d.amount (some (calcSubFromPct d))).toFixed2 }
    else { d with subtotalAmount := some (calcSubFromPct d) }
  else d

/-- Paso 3 (lines 332-346): prefer the computed tax (subtotal times rate)
over an extracted tax that disagrees by more than 0.05. -/
def step3 (d : ReceiptData) : ReceiptData :=
  if truthy d.subtotalAmount && isDef d.taxPercentage then
    if isDef d.taxAmount then
      if ((oSub (some (calcTaxFromPct d)) d.taxAmount).abs).gtB
          (JSNum.num (5 / 100)) then
        { d with taxAmount := some (calcTaxFromPct d) }
      else d
    else { d with taxAmount := some (calcTaxFromPct d) }
  else d

/-- Paso 4 (lines 348-352): tax from total minus subtotal. -/
def step4 (d : ReceiptData) : ReceiptData :=
  if d.taxAmount = none && truthy d.amount && truthy d.subtotalAmount then
    { d with taxAmount := some (taxFromDiff d) }
  else d

/-- Paso 5 (lines 354-358): tax percentage from tax over subtotal. -/
def step5 (d : ReceiptData) : ReceiptData :=
  if !truthy d.taxPercentage && isDef d.taxAmount && truthy d.subtotalAmount &&
      oGt d.subtotalAmount (some (JSNum.num 0)) then
    { d with taxPercentage := some (calcPct d.taxAmount d.subtotalAmount) }
  else d

/-- Paso 6 (lines 360-364): total from subtotal plus tax. -/
def step6 (d : ReceiptData) : ReceiptData :=
  if !truthy d.amount && truthy d.subtotalAmount && isDef d.taxAmount then
    { d with amount := some (oAdd d.subtotalAmount d.taxAmount).toFixed2 }
  else d

/-- Paso 7 (lines 366-381): the consistency check; on a discrepancy above
0.10 the tax is overwritten by total minus subtotal and the percentage is
recomputed from the new tax when the subtotal is positive (the tax update
does not change the subtotal or the amount, so both inner tests read the
same values as `d`). -/
def step7 (d : ReceiptData) : ReceiptData :=
  if truthy d.subtotalAmount && isDef d.taxAmount && truthy d.amount then
    if ((oSub (some (oAdd d.subtotalAmount d.taxAmount).toFixed2)
        d.amount).abs).gtB (JSNum.num (10 / 100)) then
      if oGt d.subtotalAmount (some (JSNum.num 0)) then
        { d with taxAmount := some (taxFromDiff d),
                 taxPercentage :=
                   some (calcPct (some (taxFromDiff d)) d.subtotalAmount) }
      else { d with taxAmount := some (taxFromDiff d) }
    else d
  else d

/-- Paso 8 (lines 383-398): subtotal fallback when a total is known: the
second-largest money candidate when positive and below the total (deriving
the tax from the difference when the tax is falsy), otherwise the total
itself. -/
def step8 (sortedAmounts : List ℚ) (d : ReceiptData) : ReceiptData :=
  if !truthy d.subtotalAmount && isDef d.amount then
    if (match sortedAmounts.get? 1 with
        | some v => oLt (some (JSNum.num v)) d.amount && decide (0 < v)
        | none => false) then
      if !truthy d.taxAmount then
        { d with subtotalAmount := (sortedAmounts.get? 1).map JSNum.num,
                 taxAmount := some (oSub d.amount
                   ((sortedAmounts.get? 1).map JSNum.num)).toFixed2 }
      else { d with subtotalAmount := (sortedAmounts.get? 1).map JSNum.num }
    else { d with subtotalAmount := d.amount }
  else d

/-- The post-processing of `parse` (lines 302-398), in source step order. -/
def reconcile (sortedAmounts : List ℚ) (d : ReceiptData) : ReceiptData :=
  step8 sortedAmounts (step7 (step6 (step5 (step4 (step3 (step2x (step2
    (step1 d))))))))

/-- `ReceiptParser.parse`: extraction followed by reconciliation. -/
def parse (rawText : String) : ReceiptData :=
  reconcile (sortDesc (moneyVals rawText)) (extractPhase rawText)

/-! ## Predicates used by the theorems -/

/-- Every numeric field of the record that is present is an actual number,
never the not-a-number sentinel. -/
def FieldsNumeric (d : ReceiptData) : Prop :=
  d.amount ≠ some JSNum.nan ∧ d.subtotalAmount ≠ some JSNum.nan ∧
  d.taxAmount ≠ some JSNum.nan ∧ d.taxPercentage ≠ some JSNum.nan

/-- A token of the dot-thousands, comma-decimals shape: a first digit group,
further dot-separated digit groups, then a comma and the decimal digits. -/
def euroToken (g0 : List Char) (gs : List (List Char)) (e : List Char) :
    String :=
  ⟨g0 ++ (gs.map (fun g => '.' :: g)).flatten ++ ',' :: e⟩

/-- The exact rational value such a token denotes once the dots are dropped
and the comma is read as the decimal point. -/
def euroVal (g0 : List Char) (gs : List (List Char)) (e : List Char) : ℚ :=
  ((digitsVal (g0 ++ gs.flatten) : ℤ) : ℚ) +
    ((digitsVal e : ℤ) : ℚ) / (10 : ℚ) ^ e.length

/-- `v` is the rational `n / d`, stated on the reduced representation (a
`Rat` is stored in lowest terms, so `n` and `d` must be given reduced). -/
def isRatND (v : JSNum) (n : ℤ) (d : ℕ) : Bool :=
  match v with
  | JSNum.num q => q.num == n && q.den == d
  | JSNum.nan => false

/-- `isRatND` lifted to a possibly-undefined field: an absent field is never
the given rational. -/
def isSomeRatND (x : Option JSNum) (n : ℤ) (d : ℕ) : Bool :=
  match x with
  | some v => isRatND v n d
  | none => false

/-- The tax percentage, when present, is a non-negative number.  This holds
from extraction up to reconciliation step 2.5, whose division by
`1 + pct/100` it keeps well-defined. -/
def PctNN (d : ReceiptData) : Prop :=
  ∀ v, d.taxPercentage = some v → ∃ p : ℚ, v = JSNum.num p ∧ 0 ≤ p

/-! # Theorems -/

theorem truthy_some {x : Option JSNum} (h : truthy x = true) :
    ∃ q : ℚ, x = some (JSNum.num q) ∧ q ≠ 0 := by
  cases x with
  | none => simp [truthy] at h
  | some v =>
    cases v with
    | num q => exact ⟨q, rfl, by simpa [truthy] using h⟩
    | nan => simp [truthy] at h

theorem isDef_some {x : Option JSNum} (h : isDef x = true) : ∃ v, x = some v := by
  cases x with
  | none => simp [isDef] at h
  | some v => exact ⟨v, rfl⟩

theorem ne_nan_some {x : Option JSNum} (h1 : x ≠ some JSNum.nan)
    (h2 : isDef x = true) : ∃ q : ℚ, x = some (JSNum.num q) := by
  obtain ⟨v, rfl⟩ := isDef_some h2
  cases v with
  | num q => exact ⟨q, rfl⟩
  | nan => exact absurd rfl h1

theorem gtB_num {v : JSNum} {b : ℚ} (h : JSNum.gtB v (JSNum.num b) = true) :
    ∃ q : ℚ, v = JSNum.num q ∧ b < q := by
  cases v with
  | num q => exact ⟨q, rfl, by simpa [JSNum.gtB] using h⟩
  | nan => simp [JSNum.gtB] at h

theorem geB_num {v : JSNum} {b : ℚ} (h : JSNum.geB v (JSNum.num b) = true) :
    ∃ q : ℚ, v = JSNum.num q ∧ b ≤ q := by
  cases v with
  | num q => exact ⟨q, rfl, by simpa [JSNum.geB] using h⟩
  | nan => simp [JSNum.geB] at h

theorem leB_num {v : JSNum} {b : ℚ} (h : JSNum.leB v (JSNum.num b) = true) :
    ∃ q : ℚ, v = JSNum.num q ∧ q ≤ b := by
  cases v with
  | num q => exact ⟨q, rfl, by simpa [JSNum.leB] using h⟩
  | nan => simp [JSNum.leB] at h

theorem oGt_zero {x : Option JSNum} (h : oGt x (some (JSNum.num 0)) = true) :
    ∃ q : ℚ, x = some (JSNum.num q) ∧ 0 < q := by
  cases x with
  | none => simp [oGt] at h
  | some v =>
    cases v with
    | num q => exact ⟨q, rfl, by simpa [oGt, JSNum.gtB] using h⟩
    | nan => simp [oGt, JSNum.gtB] at h

theorem toFixed2_ne_nan {v : JSNum} (h : v ≠ JSNum.nan) :
    v.toFixed2 ≠ JSNum.nan := by
  cases v with
  | num q => simp [JSNum.toFixed2]
  | nan => exact absurd rfl h

/-- The subtotal ladder only returns values that passed `value > 0`. -/
theorem subtotalFromPats_pos :
    ∀ (ps : List Reg) (t : String) (v : JSNum),
      subtotalFromPats ps t = some v → JSNum.gtB v (JSNum.num 0) = true := by
  intro ps
  induction ps with
  | nil => intro t v h; simp [subtotalFromPats] at h
  | cons p ps ih =>
    intro t v h
    unfold subtotalFromPats at h
    cases hm : reFindS p t with
    | none => rw [hm] at h; exact ih t v h
    | some m =>
      rw [hm] at h
      dsimp only [] at h
      split_ifs at h with h1 h2
      · injection h with h
        subst h
        exact h2
      · exact ih t v h
      · exact ih t v h

/-- The tax-percentage ladder only returns values that passed the [0, 25]
range check. -/
theorem taxPercentFromPats_range :
    ∀ (ps : List Reg) (t : String) (v : JSNum),
      taxPercentFromPats ps t = some v →
        JSNum.geB v (JSNum.num 0) = true ∧ JSNum.leB v (JSNum.num 25) = true := by
  intro ps
  induction ps with
  | nil => intro t v h; simp [taxPercentFromPats] at h
  | cons p ps ih =>
    intro t v h
    unfold taxPercentFromPats at h
    cases hm : reFindS p t with
    | none => rw [hm] at h; exact ih t v h
    | some m =>
      rw [hm] at h
      dsimp only [] at h
      split_ifs at h with h1 h2
      · injection h with h
        subst h
        exact ⟨((Bool.and_eq_true _ _).mp h2).1,
               ((Bool.and_eq_true _ _).mp h2).2⟩
      · exact ih t v h
      · exact ih t v h

/-- The tax-amount ladder only returns values that passed `taxValue >= 0`. -/
theorem taxFromPats_nonneg :
    ∀ (ps : List Reg) (t : String) (amt sub : Option JSNum) (v : JSNum),
      taxFromPats ps t amt sub = some v → JSNum.geB v (JSNum.num 0) = true := by
  intro ps
  induction ps with
  | nil => intro t amt sub v h; simp [taxFromPats] at h
  | cons p ps ih =>
    intro t amt sub v h
    unfold taxFromPats at h
    cases hm : reFindS p t with
    | none => rw [hm] at h; exact ih t amt sub v h
    | some m =>
      rw [hm] at h
      dsimp only [] at h
      cases htv : taxCandidate m with
      | none => rw [htv] at h; exact ih t amt sub v h
      | some tv =>
        rw [htv] at h
        dsimp only [] at h
        split_ifs at h with h1 h2 h3
        · injection h with h
          subst h
          exact h1
        · exact ih t amt sub v h
        · exact ih t amt sub v h
        · exact ih t amt sub v h

/-- The total ladder only returns values that passed the `isNaN` check. -/
theorem totalFromPats_ne_nan :
    ∀ (ps : List Reg) (t : String) (v : JSNum),
      totalFromPats ps t = some v → v ≠ JSNum.nan := by
  intro ps
  induction ps with
  | nil => intro t v h; simp [totalFromPats] at h
  | cons p ps ih =>
    intro t v h
    unfold totalFromPats at h
    cases hm : reFindS p t with
    | none => rw [hm] at h; exact ih t v h
    | some m =>
      rw [hm] at h
      dsimp only [] at h
      split_ifs at h with h1 h2
      · exact ih t v h
      · injection h with h
        subst h
        intro hv
        rw [hv] at h2
        simp [JSNum.isNaNB] at h2
      · exact ih t v h

theorem amountFallback_ne_nan {amt0 : Option JSNum} {mx : Option ℚ}
    (h : amt0 ≠ some JSNum.nan) : amountFallback amt0 mx ≠ some JSNum.nan := by
  unfold amountFallback
  split_ifs with hc
  · cases mx with
    | none => simp
    | some q => simp [Option.map]
  · exact h

theorem amountRound_ne_nan {a : Option JSNum} (h : a ≠ some JSNum.nan) :
    amountRound a ≠ some JSNum.nan := by
  unfold amountRound
  split_ifs with hc
  · cases a with
    | none => simp
    | some v =>
      cases v with
      | num q => simp [Option.map, JSNum.toFixed2]
      | nan => exact absurd rfl h
  · exact h

/-- The total extracted by the ladder, before the fallback, is never `NaN`. -/
theorem totalFromPats_opt_ne_nan (ps : List Reg) (t : String) :
    totalFromPats ps t ≠ some JSNum.nan := by
  intro h
  exact totalFromPats_ne_nan ps t JSNum.nan h rfl

/-- After extraction every present numeric field is a number. -/
theorem extractPhase_fields (raw : String) : FieldsNumeric (extractPhase raw) := by
  refine ⟨?_, ?_, ?_, ?_⟩
  · exact amountRound_ne_nan (amountFallback_ne_nan (totalFromPats_opt_ne_nan _ _))
  · intro h
    have := subtotalFromPats_pos _ _ _ h
    simp [JSNum.gtB] at this
  · intro h
    have := taxFromPats_nonneg _ _ _ _ _ h
    simp [JSNum.geB] at this
  · intro h
    have := (taxPercentFromPats_range _ _ _ h).1
    simp [JSNum.geB] at this

/-- After extraction the tax percentage, when present, is in [0, 25]. -/
theorem extractPhase_pct_bounds {raw : String} {v : JSNum}
    (h : (extractPhase raw).taxPercentage = some v) :
    ∃ p : ℚ, v = JSNum.num p ∧ 0 ≤ p ∧ p ≤ 25 := by
  have hr := taxPercentFromPats_range _ _ _ h
  obtain ⟨p, rfl, hge⟩ := geB_num hr.1
  refine ⟨p, rfl, hge, ?_⟩
  simpa [JSNum.leB] using hr.2

theorem extractPhase_pctNN (raw : String) : PctNN (extractPhase raw) := by
  intro v hv
  obtain ⟨p, rfl, h0, _⟩ := extractPhase_pct_bounds hv
  exact ⟨p, rfl, h0⟩

theorem step1_fields {d : ReceiptData} (h : FieldsNumeric d) :
    FieldsNumeric (step1 d) := by
  unfold step1
  split_ifs with h1 h2
  · exact ⟨h.1, h.1, by simp, by simp⟩
  · exact h
  · exact h

theorem step1_pct {d : ReceiptData} (hp : PctNN d) : PctNN (step1 d) := by
  unfold step1
  split_ifs with h1 h2
  · intro v hv
    injection hv with hv
    exact ⟨0, hv.symm, le_refl 0⟩
  · exact hp
  · exact hp

theorem step2_pct_eq (d : ReceiptData) :
    (step2 d).taxPercentage = d.taxPercentage := by
  unfold step2
  split_ifs <;> rfl

theorem step2_fields {d : ReceiptData} (h : FieldsNumeric d) :
    FieldsNumeric (step2 d) := by
  unfold step2
  split_ifs with hc
  · simp only [Bool.and_eq_true] at hc
    obtain ⟨a, ha⟩ := ne_nan_some h.1 hc.1.2
    obtain ⟨b, hb⟩ := ne_nan_some h.2.2.1 hc.2
    refine ⟨h.1, ?_, h.2.2.1, h.2.2.2⟩
    show some (oSub d.amount d.taxAmount).toFixed2 ≠ some JSNum.nan
    rw [ha, hb]
    simp [oSub, JSNum.sub, JSNum.toFixed2]
  · exact h

theorem step2x_fields {d : ReceiptData} (h : FieldsNumeric d) (hp : PctNN d) :
    FieldsNumeric (step2x d) := by
  unfold step2x
  split_ifs with hc htax
  · simp only [Bool.and_eq_true] at hc
    obtain ⟨a, ha, _⟩ := truthy_some hc.1.2
    obtain ⟨v, hv, hvnz⟩ := truthy_some hc.2
    obtain ⟨p, hpe, hp0⟩ := hp _ hv
    injection hpe with hpe
    subst hpe
    have hden : (1 : ℚ) + v / 100 ≠ 0 := by positivity
    have hsub : calcSubFromPct d ≠ JSNum.nan := by
      unfold calcSubFromPct
      rw [ha, hv]
      simp [oDiv, JSNum.div, JSNum.add, JSNum.toFixed2, hden]
    obtain ⟨sq, hsq⟩ : ∃ q : ℚ, calcSubFromPct d = JSNum.num q := by
      cases hcs : calcSubFromPct d with
      | num q => exact ⟨q, rfl⟩
      | nan => exact absurd hcs hsub
    refine ⟨h.1, ?_, ?_, h.2.2.2⟩
    · show some (calcSubFromPct d) ≠ some JSNum.nan
      simp [hsq]
    · show some (oSub d.amount (some (calcSubFromPct d))).toFixed2 ≠
        some JSNum.nan
      rw [ha, hsq]
      simp [oSub, JSNum.sub, JSNum.toFixed2]
  · simp only [Bool.and_eq_true] at hc
    obtain ⟨a, ha, _⟩ := truthy_some hc.1.2
    obtain ⟨v, hv, hvnz⟩ := truthy_some hc.2
    obtain ⟨p, hpe, hp0⟩ := hp _ hv
    injection hpe with hpe
    subst hpe
    have hden : (1 : ℚ) + v / 100 ≠ 0 := by positivity
    refine ⟨h.1, ?_, h.2.2.1, h.2.2.2⟩
    show some (calcSubFromPct d) ≠ some JSNum.nan
    unfold calcSubFromPct
    rw [ha, hv]
    simp [oDiv, JSNum.div, JSNum.add, JSNum.toFixed2, hden]
  · exact h

theorem step3_fields {d : ReceiptData} (h : FieldsNumeric d) :
    FieldsNumeric (step3 d) := by
  have hcal : truthy d.subtotalAmount = true → isDef d.taxPercentage = true →
      calcTaxFromPct d ≠ JSNum.nan := by
    intro hs hpd
    obtain ⟨sq, hsq, _⟩ := truthy_some hs
    obtain ⟨p, hp⟩ := ne_nan_some h.2.2.2 hpd
    unfold calcTaxFromPct
    rw [hsq, hp]
    simp [oDiv, JSNum.div, oMul, JSNum.mul, JSNum.toFixed2]
  unfold step3
  split_ifs with hc htax hdiff
  · simp only [Bool.and_eq_true] at hc
    refine ⟨h.1, h.2.1, ?_, h.2.2.2⟩
    show some (calcTaxFromPct d) ≠ some JSNum.nan
    simpa using hcal hc.1 hc.2
  · exact h
  · simp only [Bool.and_eq_true] at hc
    refine ⟨h.1, h.2.1, ?_, h.2.2.2⟩
    show some (calcTaxFromPct d) ≠ some JSNum.nan
    simpa using hcal hc.1 hc.2
  · exact h

theorem step4_fields {d : ReceiptData} (h : FieldsNumeric d) :
    FieldsNumeric (step4 d) := by
  unfold step4
  split_ifs with hc
  · simp only [Bool.and_eq_true] at hc
    obtain ⟨a, ha, _⟩ := truthy_some hc.1.2
    obtain ⟨sq, hsq, _⟩ := truthy_some hc.2
    refine ⟨h.1, h.2.1, ?_, h.2.2.2⟩
    show some (taxFromDiff d) ≠ some JSNum.nan
    unfold taxFromDiff
    rw [ha, hsq]
    simp [oSub, JSNum.sub, JSNum.toFixed2]
  · exact h

theorem step5_fields {d : ReceiptData} (h : FieldsNumeric d) :
    FieldsNumeric (step5 d) := by
  unfold step5
  split_ifs with hc
  · simp only [Bool.and_eq_true] at hc
    obtain ⟨sq, hsq, hspos⟩ := oGt_zero hc.2
    obtain ⟨t, ht⟩ := ne_nan_some h.2.2.1 hc.1.1.2
    refine ⟨h.1, h.2.1, h.2.2.1, ?_⟩
    show some (calcPct d.taxAmount d.subtotalAmount) ≠ some JSNum.nan
    unfold calcPct
    rw [hsq, ht]
    simp [oDiv, JSNum.div, oMul, JSNum.mul, JSNum.toFixed2, ne_of_gt hspos]
  · exact h

theorem step6_fields {d : ReceiptData} (h : FieldsNumeric d) :
    FieldsNumeric (step6 d) := by
  unfold step6
  split_ifs with hc
  · simp only [Bool.and_eq_true] at hc
    obtain ⟨sq, hsq, _⟩ := truthy_some hc.1.2
    obtain ⟨t, ht⟩ := ne_nan_some h.2.2.1 hc.2
    refine ⟨?_, h.2.1, h.2.2.1, h.2.2.2⟩
    show some (oAdd d.subtotalAmount d.taxAmount).toFixed2 ≠ some JSNum.nan
    rw [hsq, ht]
    simp [oAdd, JSNum.add, JSNum.toFixed2]
  · exact h

theorem step7_fields {d : ReceiptData} (h : FieldsNumeric d) :
    FieldsNumeric (step7 d) := by
  have hdiffv : truthy d.amount = true → truthy d.subtotalAmount = true →
      ∃ q : ℚ, taxFromDiff d = JSNum.num q := by
    intro ha hs
    obtain ⟨a, ha2, _⟩ := truthy_some ha
    obtain ⟨sq, hs2, _⟩ := truthy_some hs
    unfold taxFromDiff
    rw [ha2, hs2]
    exact ⟨_, rfl⟩
  unfold step7
  split_ifs with hc hdiff hpos
  · simp only [Bool.and_eq_true] at hc
    obtain ⟨q, hq⟩ := hdiffv hc.2 hc.1.1
    obtain ⟨sq, hsq, hspos⟩ := oGt_zero hpos
    refine ⟨h.1, h.2.1, ?_, ?_⟩
    · show some (taxFromDiff d) ≠ some JSNum.nan
      simp [hq]
    · show some (calcPct (some (taxFromDiff d)) d.subtotalAmount) ≠
        some JSNum.nan
      unfold calcPct
      rw [hq, hsq]
      simp [oDiv, JSNum.div, oMul, JSNum.mul, JSNum.toFixed2, ne_of_gt hspos]
  · simp only [Bool.and_eq_true] at hc
    obtain ⟨q, hq⟩ := hdiffv hc.2 hc.1.1
    refine ⟨h.1, h.2.1, ?_, h.2.2.2⟩
    show some (taxFromDiff d) ≠ some JSNum.nan
    simp [hq]
  · exact h
  · exact h

theorem step8_fields {amts : List ℚ} {d : ReceiptData}
    (h : FieldsNumeric d) : FieldsNumeric (step8 amts d) := by
  unfold step8
  split_ifs with hc hs1 htax
  · simp only [Bool.and_eq_true] at hc
    obtain ⟨a, ha⟩ := ne_nan_some h.1 hc.2
    refine ⟨h.1, ?_, ?_, h.2.2.2⟩
    · show (amts.get? 1).map JSNum.num ≠ some JSNum.nan
      cases amts.get? 1 <;> simp [Option.map]
    · show some (oSub d.amount ((amts.get? 1).map JSNum.num)).toFixed2 ≠
        some JSNum.nan
      cases hg : amts.get? 1 with
      | none =>
        rw [hg] at hs1
        simp at hs1
      | some v =>
        rw [ha]
        simp [oSub, JSNum.sub, JSNum.toFixed2, Option.map]
  · refine ⟨h.1, ?_, h.2.2.1, h.2.2.2⟩
    show (amts.get? 1).map JSNum.num ≠ some JSNum.nan
    cases amts.get? 1 <;> simp [Option.map]
  · exact ⟨h.1, h.1, h.2.2.1, h.2.2.2⟩
  · exact h

theorem step8_amount_eq (amts : List ℚ) (d : ReceiptData) :
    (step8 amts d).amount = d.amount := by
  unfold step8
  split_ifs <;> rfl

theorem step8_subtotal_isSome {amts : List ℚ} {d : ReceiptData}
    (h : d.amount.isSome = true) :
    (step8 amts d).subtotalAmount.isSome = true := by
  unfold step8
  split_ifs with hc hs1 htax
  · show ((amts.get? 1).map JSNum.num).isSome = true
    cases hg : amts.get? 1 with
    | none => rw [hg] at hs1; simp at hs1
    | some v => simp
  · show ((amts.get? 1).map JSNum.num).isSome = true
    cases hg : amts.get? 1 with
    | none => rw [hg] at hs1; simp at hs1
    | some v => simp
  · exact h
  · have hd : isDef d.amount = true := h
    rw [Bool.and_eq_true, hd] at hc
    have hns : truthy d.subtotalAmount = true := by
      cases hts : truthy d.subtotalAmount with
      | false => exact absurd ⟨by simp [hts], rfl⟩ hc
      | true => rfl
    obtain ⟨q, hq, _⟩ := truthy_some hns
    rw [hq]
    rfl

/-- C1: the spec's Scenario A expects `vendorName="Acme Corp"`,
`subtotalAmount=100.00`, `taxPercentage=7`, `taxAmount=7.00`,
`amount=107.00`.  The code disagrees: the loose `/total[:\s]*\$?\s*([\d,\.]+)/i`
ladder pattern finds its leftmost match inside the word `Subtotal`, so the
grand total is read as 100.00; the totals-section anchor also matches inside
`Subtotal`, cutting the subtotal label out of the extraction text, so no
subtotal is extracted and reconciliation derives 93.00 and adjusts the
percentage to 7.53.  This theorem evaluates the embedded `parse` at the
claimed input, exhibiting the actual output. -/
theorem C1_scenarioA_actual_output :
    parse "Acme Corp\nSubtotal: $100.00\nTax 7%\nTotal: $107.00" =
      { rawText := "Acme Corp\nSubtotal: $100.00\nTax 7%\nTotal: $107.00",
        amount := some (JSNum.num 100),
        subtotalAmount := some (JSNum.num 93),
        taxAmount := some (JSNum.num 7),
        taxPercentage := some (JSNum.num (753 / 100)),
        vendorName := some "Acme Corp" } := by
  with_unfolding_all decide

/-- C2: the claimed invariant `|subtotalAmount + taxAmount - amount| <= 0.10`
fails on the code.  For the input below the tax ladder reads 100.00, the
total is 100.00, Paso 2 computes subtotal `100 - 100 = 0`, the falsy zero
subtotal makes Paso 7 (the consistency check) skip, and Paso 8 then sets
subtotal back to the total, leaving `100 + 100 - 100 = 100` off by 100. -/
theorem C2_reconciliation_closure_violated :
    parse "Total: 100.00\nTax: 100.00" =
      { rawText := "Total: 100.00\nTax: 100.00",
        amount := some (JSNum.num 100),
        subtotalAmount := some (JSNum.num 100),
        taxAmount := some (JSNum.num 100),
        taxPercentage := none,
        vendorName := some "Total: 100.00" } ∧
      ¬(|(100 : ℚ) + 100 - 100| ≤ 10 / 100) :=
  ⟨by with_unfolding_all decide, by norm_num⟩

/-- An invariant of the exact-rational model only: the embedded `parse`
never stores the not-a-number sentinel in `amount`, `subtotalAmount`,
`taxAmount` or `taxPercentage` — each assignment is guarded (`value > 0`,
the [0, 25] range check, `taxValue >= 0`, `!isNaN`) and every
reconciliation division has a divisor guarded away from zero.  This does
NOT transfer to the program: `JSNum` has no `Infinity`, whereas the real
`parseFloat` saturates on a capture of more than about 308 digits, after
which Paso 4 computes `Infinity - Infinity = NaN` and stores it unguarded
(and Paso 5 then stores a `NaN` percentage).  The claim that the program
never stores `NaN` is therefore false; this theorem only delimits the
failure: within the model, i.e. whenever no extracted value overflows a
double, no `NaN` is produced. -/
theorem fieldsNumeric_of_exact_model (text : String) :
    FieldsNumeric (parse text) := by
  have h0 := extractPhase_fields text
  have p0 := extractPhase_pctNN text
  have h1 := step1_fields h0
  have p1 := step1_pct p0
  have h2 := step2_fields h1
  have p2 : PctNN (step2 (step1 (extractPhase text))) := by
    intro v hv
    rw [step2_pct_eq] at hv
    exact p1 v hv
  have h2x := step2x_fields h2 p2
  have h3 := step3_fields h2x
  have h4 := step4_fields h3
  have h5 := step5_fields h4
  have h6 := step6_fields h5
  have h7 := step7_fields h6
  exact @step8_fields (sortDesc (moneyVals text)) _ h7

/-- C4 as stated is false: reconciliation can derive a tax percentage far
above 100.  Here the subtotal line sits after the total, the loose total
pattern reads 100.00, the subtotal ladder reads 1.00, Paso 4 derives tax
`99.00`, and Paso 5 computes `99 / 1 * 100 = 9900` per cent. -/
theorem C4_percentage_bound_counterexample :
    isSomeRatND (parse "Desglose\nTotal: 100.00\nSubtotal: 1.00").taxPercentage
        9900 1 = true ∧ ¬((9900 : ℚ) ≤ 100) :=
  ⟨by with_unfolding_all decide, by norm_num⟩

/-- C4, amended: in the record produced by the extraction phase (before
reconciliation), `taxPercentage`, when present, lies in [0, 100] — the
extraction validator in fact confines it to [0, 25]. -/
theorem C4_extraction_percentage_in_range (text : String) (v : JSNum)
    (h : (extractPhase text).taxPercentage = some v) :
    ∃ p : ℚ, v = JSNum.num p ∧ 0 ≤ p ∧ p ≤ 100 := by
  obtain ⟨p, rfl, h0, h25⟩ := extractPhase_pct_bounds h
  exact ⟨p, rfl, h0, le_trans h25 (by norm_num)⟩

theorem C4_extraction_percentage_in_range_witness :
    ∃ p : ℚ, JSNum.num 7 = JSNum.num p ∧ 0 ≤ p ∧ p ≤ 100 :=
  C4_extraction_percentage_in_range
    "Acme Corp\nSubtotal: $100.00\nTax 7%\nTotal: $107.00" (JSNum.num 7)
    (by with_unfolding_all decide)

/-- C5: Scenario B.  With `"ITBMS 0.00"` in the text, a total of 50.00 and
no subtotal line, the zero-tax step fires: tax 0, rate 0 per cent, subtotal
equal to the total. -/
theorem C5_zero_tax_scenarioB :
    parse "ITBMS 0.00\nTotal: $50.00" =
      { rawText := "ITBMS 0.00\nTotal: $50.00",
        amount := some (JSNum.num 50),
        subtotalAmount := some (JSNum.num 50),
        taxAmount := some (JSNum.num 0),
        taxPercentage := some (JSNum.num 0),
        vendorName := some "ITBMS 0.00" } := by
  with_unfolding_all decide

/-- C6: whatever the raw text, vendor name and money candidates, if
extraction produced subtotal 100.00, tax 5.00, total 110.00 and no
percentage, reconciliation returns tax 10.00 and percentage 10.0 with the
subtotal and total unchanged (Paso 7 trusts the subtotal and the total). -/
theorem C6_discrepancy_correction (raw : String) (vend : Option String)
    (amts : List ℚ) :
    reconcile amts
      { rawText := raw, amount := some (JSNum.num 110),
        subtotalAmount := some (JSNum.num 100),
        taxAmount := some (JSNum.num 5), taxPercentage := none,
        vendorName := vend } =
      { rawText := raw, amount := some (JSNum.num 110),
        subtotalAmount := some (JSNum.num 100),
        taxAmount := some (JSNum.num 10),
        taxPercentage := some (JSNum.num 10), vendorName := vend } := by
  with_unfolding_all rfl

/-- C7: the currency-parser round trip: the European and the US writing of
1234.56 both parse to 1234.56 (in lowest terms 30864/25), and the empty
string gives the sentinel. -/
theorem C7_parseCurrency_roundtrip :
    isRatND (parseCurrency "1.234,56") 30864 25 = true ∧
      isRatND (parseCurrency "1,234.56") 30864 25 = true ∧
      parseCurrency "" = JSNum.nan :=
  ⟨by with_unfolding_all decide, by with_unfolding_all decide,
   by with_unfolding_all decide⟩

/-- C8 as stated is false for the one-decimal-digit case: both shape tests
of the source (`/\d+\.\d{3},\d{2}$/` and `/\d{1,3}(?:\.\d{3})+,\d{2}$/`)
demand exactly two digits after the comma, so `"1.234,5"` falls into the
comma-stripping branch and parses to 1.2345 (in lowest terms 2469/2000),
not to the claimed 1234.5 (in lowest terms 2469/2). -/
theorem C8_one_decimal_digit_counterexample :
    isRatND (parseCurrency "1.234,5") 2469 2000 = true ∧
      isRatND (parseCurrency "1.234,5") 2469 2 = false :=
  ⟨by with_unfolding_all decide, by with_unfolding_all decide⟩

/-- C9: the two-capture tax pattern is dead code.  The first tax-amount
pattern is written with doubled backslashes inside a regex literal, so it
matches only strings containing literal backslash characters; on the claimed
input `"Desglose\n7.00 total 107.00"` it does not match, no other tax
pattern matches either, and the extraction phase leaves `taxAmount` absent
instead of capturing the smaller of the two numbers. -/
theorem C9_two_capture_tax_pattern_dead :
    (extractPhase "Desglose\n7.00 total 107.00").taxAmount = none := by
  with_unfolding_all decide

/-- C10: whenever `parse` returns a record with `amount` present,
`subtotalAmount` is present too: Paso 8 runs last, leaves the total
untouched, and assigns a subtotal (the second-largest money candidate or
the total itself) whenever the total is defined and the subtotal is falsy,
while a truthy subtotal is already present. -/
theorem C10_amount_implies_subtotal (text : String)
    (h : (parse text).amount.isSome = true) :
    (parse text).subtotalAmount.isSome = true := by
  have h7 : (step7 (step6 (step5 (step4 (step3 (step2x (step2 (step1
      (extractPhase text))))))))).amount.isSome = true := by
    rw [← step8_amount_eq (sortDesc (moneyVals text))]
    exact h
  exact step8_subtotal_isSome h7

theorem C10_amount_implies_subtotal_witness :
    (parse "Desglose\n7.00 total 107.00").subtotalAmount.isSome = true :=
  C10_amount_implies_subtotal "Desglose\n7.00 total 107.00"
    (by with_unfolding_all decide)

theorem jsDigit_ne {c d : Char} (h : jsDigit c = true)
    (hd : jsDigit d = false) : c ≠ d := by
  intro he
  subst he
  rw [h] at hd
  cases hd

theorem jsSpace_of_digit {c : Char} (h : jsDigit c = true) :
    jsSpace c = false := by
  cases hs : jsSpace c with
  | false => rfl
  | true =>
    simp only [jsSpace, Bool.or_eq_true, decide_eq_true_eq] at hs
    rcases hs with ((((((rfl | rfl) | rfl) | rfl) | rfl) | rfl) | rfl) <;>
      simp [jsDigit, Char.isDigit] at h

theorem dropWhile_eq_self_of {p : Char → Bool} {cs : List Char}
    (h : ∀ c ∈ cs, p c = false) : cs.dropWhile p = cs := by
  cases cs with
  | nil => rfl
  | cons c rest => rw [List.dropWhile_cons_of_neg (by simp [h c (by simp)])]

theorem jsTrim_eq_self {cs : List Char}
    (h : ∀ c ∈ cs, jsSpace c = false) : jsTrim cs = cs := by
  unfold jsTrim
  rw [dropWhile_eq_self_of h,
      dropWhile_eq_self_of (fun c hc => h c (List.mem_reverse.mp hc)),
      List.reverse_reverse]

theorem takeWhile_append_all {p : Char → Bool} {l r : List Char}
    (h : ∀ c ∈ l, p c = true) : (l ++ r).takeWhile p = l ++ r.takeWhile p := by
  induction l with
  | nil => rfl
  | cons c cs ih =>
    rw [List.cons_append, List.takeWhile_cons_of_pos (h c (by simp)),
        ih (fun x hx => h x (by simp [hx])), List.cons_append]

theorem takeWhile_eq_self_of {p : Char → Bool} {l : List Char}
    (h : ∀ c ∈ l, p c = true) : l.takeWhile p = l := by
  induction l with
  | nil => rfl
  | cons c cs ih =>
    rw [List.takeWhile_cons_of_pos (h c (by simp)),
        ih (fun x hx => h x (by simp [hx]))]

/-- The group part of the euro shape, reversed, passes `revGroups`: the
accumulated prefix `acc` ends in a digit, and each group is three digits
preceded by its dot. -/
theorem revGroups_flatten :
    ∀ (gs : List (List Char)) (acc : List Char), gs ≠ [] →
      (∀ g ∈ gs, g.length = 3 ∧ ∀ c ∈ g, jsDigit c = true) →
      jsDigit (acc.reverse.headD ' ') = true →
      revGroups ((acc ++ (gs.map (fun g => '.' :: g)).flatten).reverse) =
        true := by
  intro gs
  induction gs with
  | nil => intro acc h; exact absurd rfl h
  | cons g gs ih =>
    intro acc _ hg hacc
    obtain ⟨hlen, hdig⟩ := hg g (by simp)
    obtain ⟨a, b, c, rfl⟩ := List.length_eq_three.mp hlen
    cases gs with
    | nil =>
      simp only [List.map_cons, List.map_nil, List.flatten_cons,
        List.flatten_nil, List.append_nil]
      rw [show acc ++ '.' :: [a, b, c] = acc ++ ['.', a, b, c] from rfl]
      rw [List.reverse_append]
      show revGroups (c :: b :: a :: '.' :: acc.reverse) = true
      unfold revGroups
      rw [hdig c (by simp), hdig b (by simp), hdig a (by simp), hacc]
      simp
    | cons g2 gs2 =>
      have step : acc ++
            (([a, b, c] :: g2 :: gs2).map (fun g => '.' :: g)).flatten =
          (acc ++ '.' :: [a, b, c]) ++
            ((g2 :: gs2).map (fun g => '.' :: g)).flatten := by
        simp [List.flatten_cons, List.append_assoc]
      rw [step]
      refine ih (acc ++ '.' :: [a, b, c]) (by simp)
        (fun x hx => hg x (by simp [hx])) ?_
      rw [show acc ++ '.' :: [a, b, c] = acc ++ ['.', a, b, c] from rfl]
      rw [List.reverse_append]
      show jsDigit ((c :: b :: a :: '.' :: acc.reverse).headD ' ') = true
      exact hdig c (by simp)

theorem filter_keep_of_digits {l : List Char} (h : ∀ c ∈ l, jsDigit c = true) :
    (l.filter fun c => c ≠ '.') = l :=
  List.filter_eq_self.mpr fun c hc => by
    simp [jsDigit_ne (h c hc) (by decide : jsDigit '.' = false)]

theorem map_comma_of_digits {l : List Char} (h : ∀ c ∈ l, jsDigit c = true) :
    (l.map fun c => if c = ',' then '.' else c) = l := by
  rw [List.map_congr_left (g := fun a => a)
    (fun c hc => if_neg (jsDigit_ne (h c hc) (by decide : jsDigit ',' = false)))]
  simp

theorem flatten_filter_dots {gs : List (List Char)}
    (h : ∀ g ∈ gs, g.length = 3 ∧ ∀ c ∈ g, jsDigit c = true) :
    (((gs.map fun g => '.' :: g).flatten).filter fun c => c ≠ '.') =
      gs.flatten := by
  induction gs with
  | nil => rfl
  | cons g gs ih =>
    rw [List.map_cons, List.flatten_cons, List.filter_append,
        List.filter_cons_of_neg (by simp),
        filter_keep_of_digits (h g (by simp)).2,
        ih (fun x hx => h x (by simp [hx])), List.flatten_cons]

theorem flatten_digits {gs : List (List Char)}
    (h : ∀ g ∈ gs, g.length = 3 ∧ ∀ c ∈ g, jsDigit c = true) :
    ∀ c ∈ gs.flatten, jsDigit c = true := by
  intro c hc
  rw [List.mem_flatten] at hc
  obtain ⟨g, hg, hcg⟩ := hc
  exact (h g hg).2 c hcg

theorem mapflat_mem {gs : List (List Char)}
    (h : ∀ g ∈ gs, g.length = 3 ∧ ∀ c ∈ g, jsDigit c = true) :
    ∀ c ∈ (gs.map fun g => '.' :: g).flatten, jsDigit c = true ∨ c = '.' := by
  intro c hc
  rw [List.mem_flatten] at hc
  obtain ⟨l, hl, hcl⟩ := hc
  rw [List.mem_map] at hl
  obtain ⟨g, hg, rfl⟩ := hl
  rcases List.mem_cons.mp hcl with rfl | hcg
  · exact Or.inr rfl
  · exact Or.inl ((h g hg).2 c hcg)

theorem parseDec_shape (D e : List Char) (hD : ∀ c ∈ D, jsDigit c = true)
    (hDne : D ≠ []) (he : ∀ c ∈ e, jsDigit c = true) :
    parseDec (D ++ '.' :: e) = some (((digitsVal D : ℤ) : ℚ) +
      ((digitsVal e : ℤ) : ℚ) / (10 : ℚ) ^ e.length) := by
  have ht : (D ++ '.' :: e).takeWhile jsDigit = D := by
    rw [takeWhile_append_all hD,
        List.takeWhile_cons_of_neg (by decide : ¬jsDigit '.' = true)]
    simp
  have hfp : fracPart ('.' :: e) = e := by
    show (if ('.' : Char) = '.' then e.takeWhile jsDigit else []) = e
    rw [if_pos rfl, takeWhile_eq_self_of he]
  unfold parseDec
  rw [ht, List.drop_left, hfp,
      if_neg fun hh => hDne (List.isEmpty_iff.mp hh.1)]

theorem parseFloat_shape (D e : List Char) (hD : ∀ c ∈ D, jsDigit c = true)
    (hDne : D ≠ []) (he : ∀ c ∈ e, jsDigit c = true) :
    parseFloat ⟨D ++ '.' :: e⟩ = JSNum.num (((digitsVal D : ℤ) : ℚ) +
      ((digitsVal e : ℤ) : ℚ) / (10 : ℚ) ^ e.length) := by
  obtain ⟨c0, D0, rfl⟩ := List.exists_cons_of_ne_nil hDne
  have hc0 : jsDigit c0 = true := hD c0 (by simp)
  unfold parseFloat
  rw [show (String.mk ((c0 :: D0) ++ '.' :: e)).data =
        c0 :: (D0 ++ '.' :: e) from rfl,
      List.dropWhile_cons_of_neg (by simp [jsSpace_of_digit hc0])]
  show (if c0 = '-' then _ else if c0 = '+' then _ else _) = _
  rw [if_neg (jsDigit_ne hc0 (by decide : jsDigit '-' = false)),
      if_neg (jsDigit_ne hc0 (by decide : jsDigit '+' = false)),
      show c0 :: (D0 ++ '.' :: e) = (c0 :: D0) ++ '.' :: e from rfl,
      parseDec_shape (c0 :: D0) e hD hDne he]

theorem euroToken_data (g0 : List Char) (gs : List (List Char))
    (e1 e2 : Char) : (euroToken g0 gs [e1, e2]).data =
      (g0 ++ (gs.map fun g => '.' :: g).flatten) ++ [',', e1, e2] := rfl

theorem euroToken_mem {g0 : List Char} {gs : List (List Char)} {e1 e2 : Char}
    (hg0d : ∀ c ∈ g0, jsDigit c = true)
    (hgrp : ∀ g ∈ gs, g.length = 3 ∧ ∀ c ∈ g, jsDigit c = true)
    (he1 : jsDigit e1 = true) (he2 : jsDigit e2 = true) :
    ∀ c ∈ (euroToken g0 gs [e1, e2]).data,
      jsDigit c = true ∨ c = ',' ∨ c = '.' := by
  intro c hc
  rw [euroToken_data] at hc
  rcases List.mem_append.mp hc with hl | he
  · rcases List.mem_append.mp hl with h0 | hf
    · exact Or.inl (hg0d c h0)
    · rcases mapflat_mem hgrp c hf with hd | rfl
      · exact Or.inl hd
      · exact Or.inr (Or.inr rfl)
  · rcases List.mem_cons.mp he with rfl | he'
    · exact Or.inr (Or.inl rfl)
    · rcases List.mem_cons.mp he' with rfl | he''
      · exact Or.inl he1
      · rcases List.mem_cons.mp he'' with rfl | h
        · exact Or.inl he2
        · cases h

theorem pcStrip_euroToken {g0 : List Char} {gs : List (List Char)}
    {e1 e2 : Char}
    (hg0d : ∀ c ∈ g0, jsDigit c = true)
    (hgrp : ∀ g ∈ gs, g.length = 3 ∧ ∀ c ∈ g, jsDigit c = true)
    (he1 : jsDigit e1 = true) (he2 : jsDigit e2 = true) :
    pcStrip (euroToken g0 gs [e1, e2]) = euroToken g0 gs [e1, e2] := by
  unfold pcStrip
  rw [jsTrim_eq_self (fun c hc => by
        rcases euroToken_mem hg0d hgrp he1 he2 c hc with hd | rfl | rfl
        · exact jsSpace_of_digit hd
        · rfl
        · rfl),
      List.filter_eq_self.mpr (fun c hc => by
        rcases euroToken_mem hg0d hgrp he1 he2 c hc with hd | rfl | rfl
        · simp [hd]
        · simp
        · simp)]

theorem euroTestB_euroToken {g0 : List Char} {gs : List (List Char)}
    {e1 e2 : Char}
    (hg0 : g0 ≠ []) (hg0d : ∀ c ∈ g0, jsDigit c = true)
    (hgs : gs ≠ [])
    (hgrp : ∀ g ∈ gs, g.length = 3 ∧ ∀ c ∈ g, jsDigit c = true)
    (he1 : jsDigit e1 = true) (he2 : jsDigit e2 = true) :
    euroTestB (euroToken g0 gs [e1, e2]) = true := by
  have hhead : jsDigit (g0.reverse.headD ' ') = true := by
    cases hr : g0.reverse with
    | nil => exact absurd (List.reverse_eq_nil_iff.mp hr) hg0
    | cons x xs =>
      exact hg0d x (List.mem_reverse.mp (by rw [hr]; simp))
  have hrev : (euroToken g0 gs [e1, e2]).data.reverse =
      e2 :: e1 :: ',' ::
        (g0 ++ (gs.map fun g => '.' :: g).flatten).reverse := by
    rw [euroToken_data, List.reverse_append]
    rfl
  unfold euroTestB
  rw [hrev]
  show (decide (',' = ',') && (jsDigit e2 && jsDigit e1 &&
      revGroups ((g0 ++ (gs.map fun g => '.' :: g).flatten).reverse))) = true
  rw [he1, he2, revGroups_flatten gs g0 hgs hgrp hhead]
  rfl

theorem pcRepair_euroToken {g0 : List Char} {gs : List (List Char)}
    {e1 e2 : Char}
    (hg0 : g0 ≠ []) (hg0d : ∀ c ∈ g0, jsDigit c = true)
    (hgs : gs ≠ [])
    (hgrp : ∀ g ∈ gs, g.length = 3 ∧ ∀ c ∈ g, jsDigit c = true)
    (he1 : jsDigit e1 = true) (he2 : jsDigit e2 = true) :
    pcRepair (euroToken g0 gs [e1, e2]) =
      ⟨(g0 ++ gs.flatten) ++ '.' :: [e1, e2]⟩ := by
  obtain ⟨g1, gs1, rfl⟩ := List.exists_cons_of_ne_nil hgs
  have hdot : (euroToken g0 (g1 :: gs1) [e1, e2]).data.contains '.' = true :=
    List.elem_eq_true_of_mem (by
      rw [euroToken_data]
      simp)
  have hcomma : (euroToken g0 (g1 :: gs1) [e1, e2]).data.contains ',' = true :=
    List.elem_eq_true_of_mem (by
      rw [euroToken_data]
      simp)
  unfold pcRepair
  rw [hdot, hcomma, euroTestB_euroToken hg0 hg0d hgs hgrp he1 he2]
  rw [Bool.and_self, Bool.or_true, if_pos rfl, if_pos rfl]
  unfold stripDots commasToDots
  rw [show (euroToken g0 (g1 :: gs1) [e1, e2]).data =
        (g0 ++ ((g1 :: gs1).map fun g => '.' :: g).flatten) ++ [',', e1, e2]
      from rfl]
  rw [List.filter_append, List.filter_append,
      filter_keep_of_digits hg0d, flatten_filter_dots hgrp,
      show ([',', e1, e2].filter fun c => c ≠ '.') = [',', e1, e2] from by
        simp [jsDigit_ne he1 (by decide : jsDigit '.' = false),
              jsDigit_ne he2 (by decide : jsDigit '.' = false)]]
  rw [show ((g0 ++ (g1 :: gs1).flatten) ++ [',', e1, e2] : List Char) =
        (g0 ++ (g1 :: gs1).flatten) ++ [',', e1, e2] from rfl]
  rw [List.map_append, List.map_append,
      map_comma_of_digits hg0d, map_comma_of_digits (flatten_digits hgrp),
      show ([',', e1, e2].map fun c => if c = ',' then '.' else c) =
          '.' :: [e1, e2] from by
        simp [jsDigit_ne he1 (by decide : jsDigit ',' = false),
              jsDigit_ne he2 (by decide : jsDigit ',' = false)]]

/-- **C8** (amended): the claim promises the dot-thousands/comma-decimal
branch for comma followed by 1 or 2 decimal digits, but both shape tests of
the source (lines 44 and 47) require exactly two digits after the comma, so
the one-decimal-digit half of the claim is refuted separately on the input
`"1.234,5"`.  Amended to the two-digit case, the claim holds universally: for every token
made of a non-empty leading group of at most three digits, one or more
dot-separated three-digit groups, and a comma followed by exactly two
digits, `parseCurrency` drops the dots, reads the comma as the decimal
point, and returns the exact rational value of the token. -/
theorem C8_euro_shape_two_decimals (g0 : List Char) (gs : List (List Char))
    (e1 e2 : Char)
    (hg0 : g0 ≠ []) (_hg0len : g0.length ≤ 3)
    (hg0d : ∀ c ∈ g0, jsDigit c = true)
    (hgs : gs ≠ [])
    (hgrp : ∀ g ∈ gs, g.length = 3 ∧ ∀ c ∈ g, jsDigit c = true)
    (he1 : jsDigit e1 = true) (he2 : jsDigit e2 = true) :
    parseCurrency (euroToken g0 gs [e1, e2]) =
      JSNum.num (euroVal g0 gs [e1, e2]) := by
  have hne : ¬(euroToken g0 gs [e1, e2] = "") := by
    intro h
    have hd := congrArg String.data h
    rw [euroToken_data, show ("" : String).data = [] from rfl] at hd
    simp at hd
  unfold parseCurrency
  rw [if_neg hne, pcStrip_euroToken hg0d hgrp he1 he2,
      pcRepair_euroToken hg0 hg0d hgs hgrp he1 he2,
      parseFloat_shape (g0 ++ gs.flatten) [e1, e2]
        (fun c hc => by
          rcases List.mem_append.mp hc with h0 | hf
          · exact hg0d c h0
          · exact flatten_digits hgrp c hf)
        (by simp [List.append_eq_nil, hg0])
        (fun c hc => by
          rcases List.mem_cons.mp hc with rfl | hc'
          · exact he1
          · rcases List.mem_cons.mp hc' with rfl | h
            · exact he2
            · cases h)]
  rfl

theorem C8_euro_shape_two_decimals_witness :
    parseCurrency (euroToken ['1'] [['2', '3', '4']] ['5', '6']) =
      JSNum.num (euroVal ['1'] [['2', '3', '4']] ['5', '6']) ∧
    isRatND (JSNum.num (euroVal ['1'] [['2', '3', '4']] ['5', '6']))
      30864 25 = true :=
  ⟨C8_euro_shape_two_decimals ['1'] [['2', '3', '4']] '5' '6'
      (by decide) (by decide) (by decide) (by decide) (by decide)
      (by decide) (by decide),
    by with_unfolding_all decide⟩
